import Mathlib

/-!
Shallow embedding of the simulation-orchestration core of the
Solana-Client-Extension repository (src/src/lib.rs, src/src/state/*.rs),
together with theorems settling the specification claims.

External collaborators (the RPC client and the SVM execution engine) are
modelled as explicit oracle parameters: an `RpcEnv` for account fetches, a
`FeeOracle` for priority-fee queries, and a list of engine outcomes
(`ProcessingResult`) for the batch executor.  Machine integers (u64, u32,
u128) are modelled as `Nat` with explicit `% 2^w` wherever the source
performs a truncating cast or wrapping arithmetic.
-/

namespace SolanaClientExt

/-- Opaque fixed-size account identifier (`solana_sdk::pubkey::Pubkey`). -/
abbrev Pubkey := Nat

/-- Account state (`solana_sdk::account::AccountSharedData`): owner, data
bytes, balance, executable flag. -/
structure AccountSharedData where
  owner : Pubkey
  data : List Nat
  lamports : Nat
  executable : Bool
deriving DecidableEq, Repr

/-- The external account-fetch collaborator
(`rpc_client.get_account(pubkey).ok()` in
src/src/state/rollup_account_loader.rs line 51): `none` models both an RPC
error and a not-found account, since `get_account` returns `Err` for
missing accounts and the loader only sees `.ok()`. -/
abbrev RpcEnv := Pubkey → Option AccountSharedData

/-- The loader's cache (`RwLock<HashMap<Pubkey, AccountSharedData>>`),
modelled as an association list; insertion conses to the front, and lookup
takes the first match, which agrees with `HashMap::insert` overwriting. -/
abbrev Cache := List (Pubkey × AccountSharedData)

/-- `HashMap::get` on the cache. -/
def cacheLookup : Cache → Pubkey → Option AccountSharedData
  | [], _ => none
  | (k, a) :: rest, k' => if k = k' then some a else cacheLookup rest k'

/-- `RollUpAccountLoader` (src/src/state/rollup_account_loader.rs lines
16-21); the `rpc_client` reference is passed explicitly as an `RpcEnv`. -/
structure RollUpAccountLoader where
  cache : Cache
deriving DecidableEq, Repr

/-- A fresh loader (`RollUpAccountLoader::new`): empty cache. -/
def RollUpAccountLoader.new : RollUpAccountLoader := ⟨[]⟩

/-- Outcome of one `get_account_shared_data` call: the returned snapshot,
the loader state afterwards, and how many external RPC fetches were made. -/
structure LoadOutcome where
  result : Option AccountSharedData
  loader : RollUpAccountLoader
  rpcCalls : Nat
deriving DecidableEq, Repr

/-- `RollUpAccountLoader::get_account_shared_data`
(src/src/state/rollup_account_loader.rs lines 45-57): consult the cache;
on hit return a clone with no RPC call; on miss fetch once via RPC, and on
fetch success insert into the cache and return the snapshot, while on
fetch failure (`.ok()?` short-circuit) return `none` without caching. -/
def get_account_shared_data (rpc : RpcEnv) (l : RollUpAccountLoader)
    (pubkey : Pubkey) : LoadOutcome :=
  match cacheLookup l.cache pubkey with
  | some account => ⟨some account, l, 0⟩
  | none =>
    match rpc pubkey with
    | some account => ⟨some account, ⟨(pubkey, account) :: l.cache⟩, 1⟩
    | none => ⟨none, l, 1⟩

/-- `RollUpAccountLoader::account_matches_owners`
(src/src/state/rollup_account_loader.rs lines 63-66): resolve the account
through the same cache path, then return the position of its owner in
`owners`. -/
def account_matches_owners (rpc : RpcEnv) (l : RollUpAccountLoader)
    (account : Pubkey) (owners : List Pubkey) : Option Nat :=
  match (get_account_shared_data rpc l account).result with
  | some acct => owners.indexOf? acct.owner
  | none => none

/-! ## Transactions and engine outcomes -/

/-- A compiled instruction (`solana_sdk` `CompiledInstruction`): index of
the program id in the message's account keys, account index list, and data
bytes. -/
structure CompiledInstruction where
  program_id_index : Nat
  accounts : List Nat
  data : List Nat
deriving DecidableEq, Repr

/-- A legacy `Message`: the account-key list and the instruction list (the
only fields the code under verification reads or writes). -/
structure Message where
  account_keys : List Pubkey
  instructions : List CompiledInstruction
deriving DecidableEq, Repr

/-- A `Transaction` as used by this layer: just its message (signatures are
never inspected by the simulation path). -/
structure Transaction where
  message : Message
deriving DecidableEq, Repr

/-- `Result<(), TransactionError>` — the execution status of an executed
transaction, the error rendered as its display string. -/
inductive TransactionStatus where
  | ok
  | err (e : String)
deriving DecidableEq, Repr

/-- Execution details of an executed transaction
(`ExecutedTransaction.execution_details` as read in
src/src/state/rollup_channel.rs lines 116 and 142-144): consumed units, the
optional log messages, and the status. -/
structure ExecutionDetails where
  executed_units : Nat
  log_messages : Option (List String)
  status : TransactionStatus
deriving DecidableEq, Repr

/-- `solana_svm::transaction_processing_result::ProcessedTransaction`:
either a fully executed transaction or a fees-only outcome carrying a load
error (rendered as its display string). -/
inductive ProcessedTransaction where
  | Executed (execution_details : ExecutionDetails)
  | FeesOnly (load_error : String)
deriving DecidableEq, Repr

/-- One entry of `results.processing_results`: `Result<ProcessedTransaction,
TransactionError>`, the error rendered as its display string. -/
inductive ProcessingResult where
  | ok (t : ProcessedTransaction)
  | err (e : String)
deriving DecidableEq, Repr

/-! ## Result structs (src/src/state/return_struct.rs) -/

/-- Modelled from the spec: `PrioritizationFeeDetails` — fee rate
(micro-lamports per compute unit), total fee (lamports), optional error
string.  Its declaration is missing from src/ (only its uses in
src/src/state/rollup_channel.rs lines 114-136 and 224-251 are present);
field names and the `Default` of zeroes/`None` are reconstructed from those
uses and spec §3 "PrioritizationFeeDetail". -/
structure PrioritizationFeeDetails where
  fee_per_cu_micro_lamports : Nat
  total_fee_lamports : Nat
  error_message : Option String
deriving DecidableEq, Repr

/-- `Default::default()` for `PrioritizationFeeDetails` (derive-style:
numeric fields 0, option `None`). -/
def PrioritizationFeeDetails.base : PrioritizationFeeDetails := ⟨0, 0, none⟩

/-- `RawSimulationResult` (src/src/state/return_struct.rs lines 8-16):
success flag, compute units consumed, human-readable result message.  The
`prioritization_fee_details` field is assigned by
src/src/state/rollup_channel.rs (lines 147, 160, 169, 175); its declaration
is absent from the copy of return_struct.rs under src/, so it is modelled
from the spec §3 ("optional prioritization-fee detail") and those uses. -/
structure RawSimulationResult where
  success : Bool
  cu : Nat
  result : String
  prioritization_fee_details : Option PrioritizationFeeDetails
deriving DecidableEq, Repr

/-- `RawSimulationResult::base_success` (return_struct.rs lines 20-29). -/
def RawSimulationResult.base_success (cu : Nat) : RawSimulationResult :=
  { success := true
    cu := cu
    result := s!"Base simulation executed successfully with {cu} compute units"
    prioritization_fee_details := none }

/-- `RawSimulationResult::base_failure` (return_struct.rs lines 32-38):
note the consumed-units field is set to 0 unconditionally. -/
def RawSimulationResult.base_failure (error : String) : RawSimulationResult :=
  { success := false
    cu := 0
    result := error
    prioritization_fee_details := none }

/-- `RawSimulationResult::base_no_results` (return_struct.rs lines 41-47). -/
def RawSimulationResult.base_no_results : RawSimulationResult :=
  { success := false
    cu := 0
    result := "No base simulation results returned"
    prioritization_fee_details := none }

/-! ## Analysis configuration and oracles -/

/-- `AnalysisConfig`: recognized options per spec §3 and the uses in
src/src/state/rollup_channel.rs (`estimate_compute_units`,
`calculate_priority_fee`, `tag`). -/
structure AnalysisConfig where
  estimate_compute_units : Bool
  calculate_priority_fee : Bool
  tag : Option String
deriving DecidableEq, Repr

/-- Default `AnalysisConfig` (all flags off, no tag). -/
def AnalysisConfig.base : AnalysisConfig := ⟨false, false, none⟩

/-- Result of the synchronous priority-fee estimation RPC helper
(`estimate_priority_fee_for_cu_sync`), as read at rollup_channel.rs lines
125-126. -/
structure FeeEstimate where
  fee_per_cu_micro_lamports : Nat
  total_fee_lamports : Nat
deriving DecidableEq, Repr

/-- Oracle for `rpc_client.estimate_priority_fee_for_cu_sync(accounts, cu)`
(an external RPC round trip from the channel's point of view). -/
abbrev FeeOracle := List Pubkey → Nat → Except String FeeEstimate

/-! ## RollUpChannel::simulate_transactions_raw
(src/src/state/rollup_channel.rs lines 56-185).  The SVM batch executor is
an external collaborator; its per-transaction outcomes
(`results.processing_results`) enter as the `processing_results`
parameter. -/

/-- Body of the classification loop of `simulate_transactions_raw`
(rollup_channel.rs lines 113-179) for index `i` and engine outcome
`transaction_result`. -/
def simulate_step (fee : FeeOracle) (analysis_config : AnalysisConfig)
    (transactions : List Transaction) (i : Nat)
    (transaction_result : ProcessingResult) : RawSimulationResult :=
  let executed_cu : Nat :=
    match transaction_result with
    | .ok (.Executed executed_tx) => executed_tx.executed_units
    | _ => 0
  let fee_details : Option PrioritizationFeeDetails :=
    if analysis_config.calculate_priority_fee && decide (0 < executed_cu) then
      -- `transactions[i].message.account_keys` (line 121); the index is in
      -- range whenever the engine honors its one-outcome-per-input contract.
      let accounts := ((transactions.get? i).map
        (fun tx => tx.message.account_keys)).getD []
      match fee accounts executed_cu with
      | .ok estimated_fee =>
        some { fee_per_cu_micro_lamports := estimated_fee.fee_per_cu_micro_lamports
               total_fee_lamports := estimated_fee.total_fee_lamports
               error_message := none }
      | .error e =>
        some { PrioritizationFeeDetails.base with
               error_message := some ("Failed to estimate priority fee: " ++ e) }
    else none
  match transaction_result with
  | .ok (.Executed executed_tx) =>
    match executed_tx.status with
    | .ok =>
      { RawSimulationResult.base_success executed_tx.executed_units with
        prioritization_fee_details := fee_details }
    | .err err =>
      let error_msg := s!"Transaction {i} failed with error: {err}"
      let log_msg := ((executed_tx.log_messages.map
        (fun l => String.intercalate "\n" l)).getD "")
      { RawSimulationResult.base_failure (error_msg ++ "\nLogs:\n" ++ log_msg) with
        prioritization_fee_details := fee_details }
  | .ok (.FeesOnly load_error) =>
    { RawSimulationResult.base_failure
        s!"Transaction {i} failed with error: {load_error}. Only fees were charged." with
      prioritization_fee_details := fee_details }
  | .err err =>
    { RawSimulationResult.base_failure s!"Transaction {i} failed: {err}" with
      prioritization_fee_details := fee_details }

/-- `RollUpChannel::simulate_transactions_raw` (rollup_channel.rs lines
56-185): classify each engine outcome in order, then — if that produced
nothing while the input batch was non-empty — push the single fallback
`base_no_results` entry (lines 181-183). -/
def simulate_transactions_raw (fee : FeeOracle) (analysis_config : AnalysisConfig)
    (transactions : List Transaction)
    (processing_results : List ProcessingResult) : List RawSimulationResult :=
  let return_results := processing_results.enum.map
    (fun p => simulate_step fee analysis_config transactions p.fst p.snd)
  if return_results.isEmpty && !transactions.isEmpty then
    [RawSimulationResult.base_no_results]
  else
    return_results

/-! ## Analysis result types (src/src/state/return_struct.rs lines 50-85) -/

/-- `ComputeUnitsDetails` (return_struct.rs lines 54-61). -/
structure ComputeUnitsDetails where
  cu_consumed : Nat
  logs : Option (List String)
  error_message : Option String
deriving DecidableEq, Repr

/-- `AnalysisResultDetail` (return_struct.rs lines 65-70).  The
`PriorityFee` variant is constructed by src/src/state/rollup_channel.rs
lines 229 and 244; its declaration is commented out in the copy of
return_struct.rs under src/, so it is modelled from the spec §3
("AnalysisResultDetail: ... or PriorityFee{PrioritizationFeeDetail}") and
those uses. -/
inductive AnalysisResultDetail where
  | ComputeUnits (d : ComputeUnitsDetails)
  | PriorityFee (d : PrioritizationFeeDetails)
deriving DecidableEq, Repr

/-- `SimulationAnalysisResult` (return_struct.rs lines 74-85). -/
structure SimulationAnalysisResult where
  base_simulation_success : Bool
  analysis_type : String
  details : AnalysisResultDetail
  top_level_error_message : Option String
deriving DecidableEq, Repr

/-! ## Tag store -/

/-- `HashMap<String, Vec<SimulationAnalysisResult>>` viewed through its only
two operations (`entry(..).or_default().extend(..)` and `get`): a map from
tag to the stored sequence, `none` for an absent key. -/
abbrev TaggedStore := String → Option (List SimulationAnalysisResult)

/-- `HashMap::new()`. -/
def TaggedStore.empty : TaggedStore := fun _ => none

/-- `map.entry(tag).or_default().extend(batch)`: append `batch` to the
sequence stored under `tag`, creating it from the empty sequence first if
absent. -/
def TaggedStore.append (s : TaggedStore) (tag : String)
    (batch : List SimulationAnalysisResult) : TaggedStore :=
  fun t => if t = tag then some ((s tag).getD [] ++ batch) else s t

/-! ## RollUpChannel::process_transactions_with_analysis
(src/src/state/rollup_channel.rs lines 190-269) -/

/-- The per-raw-result loop body of `process_transactions_with_analysis`
(rollup_channel.rs lines 199-252): up to one `ComputeUnits` entry (lines
200-222) followed by up to one `PriorityFee` entry (lines 224-251), per the
enabled config flags. -/
def analysis_entries_for (config : AnalysisConfig) (raw_res : RawSimulationResult) :
    List SimulationAnalysisResult :=
  (if config.estimate_compute_units then
    [{ base_simulation_success := raw_res.success
       analysis_type := "compute_units"
       details := .ComputeUnits
         { cu_consumed := raw_res.cu
           logs := none  -- `logs_for_cu_details = None` (line 201)
           error_message := if raw_res.success then none else some raw_res.result }
       top_level_error_message :=
         if raw_res.success then none else some raw_res.result }]
  else []) ++
  (if config.calculate_priority_fee then
    match raw_res.prioritization_fee_details with
    | some details =>
      [{ base_simulation_success := raw_res.success
         analysis_type := "priority_fee"
         details := .PriorityFee details
         top_level_error_message :=
           -- `details.error_message.clone().or_else(|| ...)` (lines 230-236)
           match details.error_message with
           | some m => some m
           | none => if raw_res.success then none else some raw_res.result }]
    | none =>
      [{ base_simulation_success := raw_res.success
         analysis_type := "priority_fee"
         details := .PriorityFee
           { PrioritizationFeeDetails.base with
             error_message :=
               some "Priority fee details not available or calculation skipped." }
         top_level_error_message :=
           some "Priority fee details not available or calculation skipped." }]
  else [])

/-- The full entry list produced by one pipeline call: expand every raw
simulation result, in order. -/
def pipeline_entries (fee : FeeOracle) (config : AnalysisConfig)
    (transactions : List Transaction)
    (processing_results : List ProcessingResult) : List SimulationAnalysisResult :=
  ((simulate_transactions_raw fee config transactions processing_results).map
    (analysis_entries_for config)).flatten

/-- `RollUpChannel` state (rollup_channel.rs lines 31-39): the (dead)
account-key list and the per-tag result store; the `rpc_client` reference
enters as oracle parameters where needed. -/
structure RollUpChannel where
  keys : List Pubkey
  tagged_results : TaggedStore

/-- `RollUpChannel::new` (rollup_channel.rs lines 45-51). -/
def RollUpChannel.new (keys : List Pubkey) : RollUpChannel :=
  ⟨keys, TaggedStore.empty⟩

/-- `RollUpChannel::process_transactions_with_analysis` (rollup_channel.rs
lines 190-264): run the base simulation, expand entries per config, and —
if a tag is set and at least one entry was produced — append the full batch
to that tag's stored sequence. -/
def process_transactions_with_analysis (fee : FeeOracle) (channel : RollUpChannel)
    (transactions : List Transaction) (config : AnalysisConfig)
    (processing_results : List ProcessingResult) :
    List SimulationAnalysisResult × RollUpChannel :=
  let analysis_results := pipeline_entries fee config transactions processing_results
  let channel₂ :=
    match config.tag with
    | some tag_str =>
      if analysis_results.isEmpty then channel
      else { channel with
             tagged_results := channel.tagged_results.append tag_str analysis_results }
    | none => channel
  (analysis_results, channel₂)

/-- `RollUpChannel::get_tagged_results` (rollup_channel.rs lines 267-269). -/
def get_tagged_results (channel : RollUpChannel) (tag : String) :
    Option (List SimulationAnalysisResult) :=
  channel.tagged_results tag

/-! ## TaggedAnalysisClient (src/src/lib.rs lines 235-305) -/

/-- `TaggedAnalysisClient` state (lib.rs lines 235-238): the per-tag store;
the wrapped `RpcClient` enters as oracle parameters. -/
structure TaggedAnalysisClient where
  tagged_results_store : TaggedStore

/-- `TaggedAnalysisClient::new` (lib.rs lines 242-247). -/
def TaggedAnalysisClient.new : TaggedAnalysisClient := ⟨TaggedStore.empty⟩

/-- The account collection feeding `RollUpChannel::new` in
`analyze_transactions` (lib.rs lines 258-263): concatenate every
transaction's account keys, sort, then remove consecutive duplicates
(`Vec::dedup`). -/
def collect_all_accounts (transactions : List Transaction) : List Pubkey :=
  ((transactions.foldl (fun acc tx => acc ++ tx.message.account_keys) []).mergeSort
    (fun a b => a ≤ b)).destutter (fun a b => a ≠ b)

/-- `TaggedAnalysisClient::analyze_transactions` (lib.rs lines 250-299):
run the channel pipeline on a fresh `RollUpChannel` (whose own tag store is
dropped), append the entries to the client's store when a tag is set and
the entry list is non-empty, then — if the entry list is non-empty and
every entry has `base_simulation_success == false` — return the aggregate
error joining the individual messages; otherwise return all entries. -/
def analyze_transactions (fee : FeeOracle) (client : TaggedAnalysisClient)
    (transactions : List Transaction) (config : AnalysisConfig)
    (processing_results : List ProcessingResult) :
    Except String (List SimulationAnalysisResult) × TaggedAnalysisClient :=
  let channel := RollUpChannel.new (collect_all_accounts transactions)
  let analysis_results :=
    (process_transactions_with_analysis fee channel transactions config
      processing_results).fst
  let client₂ :=
    match config.tag with
    | some tag_str =>
      if analysis_results.isEmpty then client
      else ⟨client.tagged_results_store.append tag_str analysis_results⟩
    | none => client
  let all_failed := !analysis_results.isEmpty &&
    analysis_results.all (fun r => !r.base_simulation_success)
  if all_failed then
    let error_messages := String.intercalate "; "
      (analysis_results.map
        (fun r => r.top_level_error_message.getD "Unknown simulation error"))
    (.error ("All transaction simulations failed: " ++ error_messages), client₂)
  else
    (.ok analysis_results, client₂)

/-- `TaggedAnalysisClient::get_tagged_analysis_results` (lib.rs lines
302-304). -/
def get_tagged_analysis_results (client : TaggedAnalysisClient) (tag : String) :
    Option (List SimulationAnalysisResult) :=
  client.tagged_results_store tag

/-- The inputs of one `analyze_transactions` call (the engine outcomes for
its batch included), for reasoning about repeated calls. -/
structure AnalyzeCall where
  transactions : List Transaction
  config : AnalysisConfig
  processing_results : List ProcessingResult

/-- The entry list a given call produces (independent of client state). -/
def AnalyzeCall.entries (fee : FeeOracle) (call : AnalyzeCall) :
    List SimulationAnalysisResult :=
  pipeline_entries fee call.config call.transactions call.processing_results

/-- A sequence of `analyze_transactions` calls threaded through one client
(each call's `Result` is dropped; only the state evolves). -/
def analyze_many (fee : FeeOracle) (client : TaggedAnalysisClient)
    (calls : List AnalyzeCall) : TaggedAnalysisClient :=
  calls.foldl
    (fun c call =>
      (analyze_transactions fee c call.transactions call.config
        call.processing_results).snd)
    client

/-! ## Compute-budget optimizer (src/src/lib.rs lines 389-485) -/

/-- The compute-budget program id (`solana_sdk::compute_budget::id()`),
an opaque distinguished key. -/
def compute_budget_program_id : Pubkey := 3083

/-- An uncompiled `Instruction`: target program, account metas (only their
keys matter here), data bytes. -/
structure Instruction where
  program_id : Pubkey
  accounts : List Pubkey
  data : List Nat
deriving DecidableEq, Repr

/-- Little-endian byte encoding of a u32 value. -/
def u32_le_bytes (n : Nat) : List Nat :=
  [n % 256, n / 256 % 256, n / 65536 % 256, n / 16777216 % 256]

/-- `ComputeBudgetInstruction::set_compute_unit_limit(units)`: a
compute-budget instruction with no accounts whose data is the variant
discriminant 2 followed by the little-endian u32 limit. -/
def set_compute_unit_limit (units : Nat) : Instruction :=
  { program_id := compute_budget_program_id
    accounts := []
    data := 2 :: u32_le_bytes units }

/-- `Message::compile_instruction`: resolve the program id and each account
meta to its first position in `account_keys`.  The source `unwrap`s the
position (panicking when the key is absent); both call sites push the
program id into the key list immediately before compiling, so the key is
always present there. -/
def compile_instruction (account_keys : List Pubkey) (ix : Instruction) :
    CompiledInstruction :=
  { program_id_index := account_keys.indexOf ix.program_id
    accounts := ix.accounts.map (fun a => account_keys.indexOf a)
    data := ix.data }

/-- `u32` saturating addition. -/
def saturating_add_u32 (a b : Nat) : Nat := min (a + b) (2 ^ 32 - 1)

/-- `RpcClientExt::estimate_compute_units_unsigned_tx` (lib.rs lines
390-418): simulate the single-transaction batch through a fresh
`RollUpChannel` (no analysis config is passed at this call site, so the
default one applies), collect the consumed units of the successful results
and the messages of the failed ones, and fail with the joined messages when
any result failed. -/
def estimate_compute_units_unsigned_tx (fee : FeeOracle) (transaction : Transaction)
    (processing_results : List ProcessingResult) : Except String (List Nat) :=
  let raw_results :=
    simulate_transactions_raw fee AnalysisConfig.base [transaction] processing_results
  let cus := (raw_results.filter (fun r => r.success)).map (fun r => r.cu)
  let error_messages := (raw_results.filter (fun r => !r.success)).map (fun r => r.result)
  if !error_messages.isEmpty then
    .error ("Transaction simulation failed:\n" ++ String.intercalate "\n" error_messages)
  else
    .ok cus

/-- The RPC simulation response consumed by `estimate_compute_units_msg`
(`result.value` of `simulate_transaction_with_config`): the consumed-unit
count when reported, and the transaction error when any (rendered as its
debug string). -/
structure RpcSimulationValue where
  units_consumed : Option Nat
  err : Option String
deriving DecidableEq, Repr

/-- `RpcClientExt::estimate_compute_units_msg` (lib.rs lines 420-447),
after the sign-and-simulate round trip whose response enters as `sim`:
error when the response carries no consumed-unit count; error when it
reports zero consumed units together with a transaction error; otherwise
return the consumed units. -/
def estimate_compute_units_msg (sim : RpcSimulationValue) : Except String Nat :=
  match sim.units_consumed with
  | none => .error "Missing Compute Units from transaction simulation."
  | some consumed_cu =>
    if consumed_cu == 0 && sim.err.isSome then
      .error ("Transaction simulation failed: " ++ sim.err.getD "")
    else
      .ok consumed_cu

/-- `RpcClientExt::optimize_compute_units_unsigned_tx` (lib.rs lines
449-469): take the first estimated value, cast it to u32 (`as u32`, a
truncating cast), build a limit instruction at double the cast estimate
(`optimal_cu.saturating_add(optimal_cu)`), push the compute-budget program
id onto the account keys unconditionally, compile against the extended
keys, insert the compiled instruction at position 0, and return the cast
estimate.  The in-place mutation is modelled by returning the transaction. -/
def optimize_compute_units_unsigned_tx (fee : FeeOracle) (transaction : Transaction)
    (processing_results : List ProcessingResult) : Except String (Nat × Transaction) :=
  match estimate_compute_units_unsigned_tx fee transaction processing_results with
  | .error e => .error e
  | .ok optimal_cu_vec =>
    match optimal_cu_vec.head? with
    | none => .error "CU estimation returned no results."
    | some cu₀ =>
      let optimal_cu := cu₀ % 2 ^ 32
      let optimize_ix := set_compute_unit_limit (saturating_add_u32 optimal_cu optimal_cu)
      let account_keys := transaction.message.account_keys ++ [compute_budget_program_id]
      let compiled_ix := compile_instruction account_keys optimize_ix
      .ok (optimal_cu,
        ⟨{ account_keys := account_keys
           instructions := compiled_ix :: transaction.message.instructions }⟩)

/-- `RpcClientExt::optimize_compute_units_msg` (lib.rs lines 471-484):
convert the estimate with `u32::try_from` (an error above `u32::MAX`),
build a limit instruction at the estimate plus 150, push the compute-budget
program id onto the account keys unconditionally, compile against the
extended keys, insert the compiled instruction at position 0, and return
the estimate.  The in-place mutation is modelled by returning the message. -/
def optimize_compute_units_msg (sim : RpcSimulationValue) (message : Message) :
    Except String (Nat × Message) :=
  match estimate_compute_units_msg sim with
  | .error e => .error e
  | .ok estimated =>
    if estimated < 2 ^ 32 then
      let optimal_cu := estimated
      let optimize_ix := set_compute_unit_limit (saturating_add_u32 optimal_cu 150)
      let account_keys := message.account_keys ++ [compute_budget_program_id]
      let compiled_ix := compile_instruction account_keys optimize_ix
      .ok (optimal_cu,
        { account_keys := account_keys
          instructions := compiled_ix :: message.instructions })
    else
      .error "out of range integral type conversion attempted"

/-! ## Priority-fee estimator (src/src/lib.rs lines 362-387) -/

/-- One observation returned by `get_recent_prioritization_fees`: the fee
rate in micro-lamports per compute unit (a u64). -/
structure RpcPrioritizationFee where
  prioritization_fee : Nat
deriving DecidableEq, Repr

/-- `RpcClientExtAsync::estimate_priority_fee_for_cu` (lib.rs lines
366-386), after the network round trip whose observations enter as `fees`:
take the maximum observed rate (`max().unwrap_or(0)`), multiply by `cu` in
u128 (wrapping at `2^128`, though the product of two u64 values never
wraps), divide by 1 000 000 with truncation, and cast the quotient back to
u64 (`as u64`, truncating). -/
def estimate_priority_fee_for_cu (fees : List RpcPrioritizationFee) (cu : Nat) : Nat :=
  let best_fee_per_cu_micro := (fees.map (fun f => f.prioritization_fee)).foldl Nat.max 0
  let total_lamports := best_fee_per_cu_micro * cu % 2 ^ 128 / 1000000
  total_lamports % 2 ^ 64

/-! ## Concrete fixtures for witnesses and counterexamples -/

/-- A fee oracle whose every query fails (the channel treats this as a
fee-detail error, never an overall failure). -/
def feeErr : FeeOracle := fun _ _ => .error "no fee data"

/-- A two-account transaction with no instructions. -/
def tx₀ : Transaction := ⟨{ account_keys := [1, 2], instructions := [] }⟩

/-- Engine outcome: executed successfully, 5 compute units. -/
def prOk5 : ProcessingResult := .ok (.Executed ⟨5, none, .ok⟩)

/-- Engine outcome: executed but failed, 100 compute units consumed. -/
def prFail100 : ProcessingResult := .ok (.Executed ⟨100, none, .err "boom"⟩)

/-- Config asking only for compute-unit analysis, untagged. -/
def cfgCu : AnalysisConfig := ⟨true, false, none⟩

/-- Config asking only for compute-unit analysis, tagged "t". -/
def cfgCuT : AnalysisConfig := ⟨true, false, some "t"⟩

/-- Config asking only for compute-unit analysis, tagged "u". -/
def cfgCuU : AnalysisConfig := ⟨true, false, some "u"⟩

/-- Config asking only for priority-fee analysis, untagged. -/
def cfgPf : AnalysisConfig := ⟨false, true, none⟩

/-- A concrete account snapshot. -/
def acct₀ : AccountSharedData := ⟨1, [7, 7], 10, false⟩

/-- An RPC environment knowing exactly account 0. -/
def rpc₀ : RpcEnv := fun k => if k = 0 then some acct₀ else none

/-- An RPC environment that fails every fetch. -/
def rpcNone : RpcEnv := fun _ => none

/-! ## Claims -/

/-- Claim C8: for every account key fetched twice through the same loader
where the first fetch succeeded, the second `get_account_shared_data` call
performs zero external fetches, returns data identical to the first result,
and leaves the loader unchanged; and a fetch that errors or finds nothing
returns no snapshot without inserting into the cache (the loader state is
unchanged, so a later lookup retries the fetch). -/
theorem claim_C8 (rpc : RpcEnv) (l : RollUpAccountLoader) (k : Pubkey)
    (a : AccountSharedData) :
    ((get_account_shared_data rpc l k).result = some a →
      get_account_shared_data rpc (get_account_shared_data rpc l k).loader k =
        ⟨some a, (get_account_shared_data rpc l k).loader, 0⟩) ∧
    (cacheLookup l.cache k = none → rpc k = none →
      get_account_shared_data rpc l k = ⟨none, l, 1⟩) := by
  constructor
  · intro h
    cases hc : cacheLookup l.cache k with
    | some b =>
      have hb : b = a := by
        simp [get_account_shared_data, hc] at h; exact h
      simp [get_account_shared_data, hc, hb]
    | none =>
      cases hr : rpc k with
      | some b =>
        have hb : b = a := by
          simp [get_account_shared_data, hc, hr] at h; exact h
        simp [get_account_shared_data, hc, hr, cacheLookup, hb]
      | none =>
        simp [get_account_shared_data, hc, hr] at h
  · intro hc hr
    simp [get_account_shared_data, hc, hr]

/-- Witness for C8: a successful first fetch of key 0 through `rpc₀` makes
the second call a pure cache hit; and through `rpcNone` the fetch fails
without caching. -/
theorem claim_C8_witness :
    get_account_shared_data rpc₀ (get_account_shared_data rpc₀ RollUpAccountLoader.new 0).loader 0 =
      ⟨some acct₀, (get_account_shared_data rpc₀ RollUpAccountLoader.new 0).loader, 0⟩ ∧
    get_account_shared_data rpcNone RollUpAccountLoader.new 0 =
      ⟨none, RollUpAccountLoader.new, 1⟩ :=
  ⟨(claim_C8 rpc₀ RollUpAccountLoader.new 0 acct₀).1 (by decide),
   (claim_C8 rpcNone RollUpAccountLoader.new 0 acct₀).2 (by decide) (by decide)⟩

/-- When the engine honors its one-outcome-per-input contract, the fallback
branch of `simulate_transactions_raw` is never taken. -/
theorem simulate_eq_map (fee : FeeOracle) (config : AnalysisConfig)
    (transactions : List Transaction) (processing_results : List ProcessingResult)
    (h : processing_results.length = transactions.length) :
    simulate_transactions_raw fee config transactions processing_results =
      processing_results.enum.map
        (fun p => simulate_step fee config transactions p.fst p.snd) := by
  cases hp : processing_results with
  | nil =>
    have ht : transactions = [] := by
      cases transactions with
      | nil => rfl
      | cons x xs => subst hp; simp at h
    subst hp; subst ht
    simp [simulate_transactions_raw]
  | cons q qs =>
    subst hp
    simp [simulate_transactions_raw, List.enum_cons]

/-- Claim C1: with one engine outcome per input transaction (the external
engine's contract), `simulate_transactions_raw` on a batch of N
transactions returns exactly N results, and the i-th result is the
classification of the i-th engine outcome (input order, nothing dropped);
and if the engine returns no outcomes for a non-empty batch, it returns
exactly the one fallback "no results" entry. -/
theorem claim_C1 (fee : FeeOracle) (config : AnalysisConfig)
    (transactions : List Transaction) (processing_results : List ProcessingResult) :
    (processing_results.length = transactions.length →
      (simulate_transactions_raw fee config transactions processing_results).length =
          transactions.length ∧
      ∀ i (h₁ : i < (simulate_transactions_raw fee config transactions
            processing_results).length) (h₂ : i < processing_results.length),
        (simulate_transactions_raw fee config transactions processing_results).get ⟨i, h₁⟩ =
          simulate_step fee config transactions i (processing_results.get ⟨i, h₂⟩)) ∧
    (processing_results = [] → transactions ≠ [] →
      simulate_transactions_raw fee config transactions processing_results =
        [RawSimulationResult.base_no_results]) := by
  constructor
  · intro h
    have hmap := simulate_eq_map fee config transactions processing_results h
    constructor
    · rw [hmap]; simp [h]
    · intro i h₁ h₂
      rw [List.get_eq_getElem, List.getElem_of_eq hmap h₁]
      simp [List.getElem_map, List.getElem_enum]
  · intro hp ht
    subst hp
    simp [simulate_transactions_raw, List.isEmpty_iff, ht]

/-- Witness for C1: one engine outcome for one transaction gives one
result; no engine outcome for one transaction gives the single fallback
entry. -/
theorem claim_C1_witness :
    (simulate_transactions_raw feeErr AnalysisConfig.base [tx₀] [prOk5]).length = 1 ∧
    simulate_transactions_raw feeErr AnalysisConfig.base [tx₀] [] =
      [RawSimulationResult.base_no_results] :=
  ⟨((claim_C1 feeErr AnalysisConfig.base [tx₀] [prOk5]).1 (by decide)).1,
   (claim_C1 feeErr AnalysisConfig.base [tx₀] []).2 rfl (by decide)⟩

/-- Counterexample for C2 as stated: the engine reports an
executed-but-failed transaction with 100 consumed compute units, yet the
produced `RawSimulationResult` has `cu = 0` — the partial consumption is
not carried through verbatim. -/
theorem claim_C2_counterexample :
    (simulate_transactions_raw feeErr AnalysisConfig.base [tx₀] [prFail100]).map
        (fun r => (r.success, r.cu)) = [(false, 0)] ∧
    (0 : Nat) ≠ 100 := by
  constructor
  · decide
  · decide

/-- Claim C2 (amended): every failed result produced by
`simulate_transactions_raw` carries `cu = 0`, even when the engine reported
partial consumption before failure (the engine-reported units are zeroed by
`base_failure`, and only gate the priority-fee estimation). -/
theorem claim_C2 (fee : FeeOracle) (config : AnalysisConfig)
    (transactions : List Transaction) (processing_results : List ProcessingResult)
    (r : RawSimulationResult)
    (hr : r ∈ simulate_transactions_raw fee config transactions processing_results)
    (hs : r.success = false) : r.cu = 0 := by
  unfold simulate_transactions_raw at hr
  by_cases hcond : ((processing_results.enum.map
      (fun p => simulate_step fee config transactions p.fst p.snd)).isEmpty &&
      !transactions.isEmpty) = true
  · rw [if_pos hcond] at hr
    simp at hr
    subst hr
    rfl
  · rw [if_neg hcond] at hr
    obtain ⟨p, _, hpr⟩ := List.mem_map.mp hr
    subst hpr
    rcases p with ⟨i, tr⟩
    rcases tr with t | e
    · rcases t with d | le
      · rcases hst : d.status with _ | e
        · exfalso
          simp [simulate_step, hst, RawSimulationResult.base_success] at hs
        · simp [simulate_step, hst, RawSimulationResult.base_failure]
      · simp [simulate_step, RawSimulationResult.base_failure]
    · simp [simulate_step, RawSimulationResult.base_failure]

/-- Witness for C2 (amended): the failed result produced for `prFail100`
has `cu = 0`. -/
theorem claim_C2_witness :
    ({ RawSimulationResult.base_failure
        "Transaction 0 failed with error: boom\nLogs:\n" with
       prioritization_fee_details := none } : RawSimulationResult).cu = 0 :=
  claim_C2 feeErr AnalysisConfig.base [tx₀] [prFail100] _ (by decide) (by decide)

/-- The client state left by one `analyze_transactions` call: the entries
are appended under the tag exactly when a tag is set and the entry list is
non-empty (and this happens whether or not the call returns the aggregate
error). -/
theorem analyze_snd (fee : FeeOracle) (client : TaggedAnalysisClient)
    (transactions : List Transaction) (config : AnalysisConfig)
    (processing_results : List ProcessingResult) :
    (analyze_transactions fee client transactions config processing_results).snd =
      match config.tag with
      | some tag_str =>
        if (pipeline_entries fee config transactions processing_results).isEmpty then
          client
        else
          ⟨client.tagged_results_store.append tag_str
            (pipeline_entries fee config transactions processing_results)⟩
      | none => client := by
  simp only [analyze_transactions, process_transactions_with_analysis]
  split <;> rfl

/-- The call-level result of one `analyze_transactions` call: the aggregate
error with the joined messages when the entry list is non-empty and every
entry failed, and all the entries otherwise. -/
theorem analyze_fst (fee : FeeOracle) (client : TaggedAnalysisClient)
    (transactions : List Transaction) (config : AnalysisConfig)
    (processing_results : List ProcessingResult) :
    (analyze_transactions fee client transactions config processing_results).fst =
      if !(pipeline_entries fee config transactions processing_results).isEmpty &&
          (pipeline_entries fee config transactions processing_results).all
            (fun r => !r.base_simulation_success) then
        .error ("All transaction simulations failed: " ++ String.intercalate "; "
          ((pipeline_entries fee config transactions processing_results).map
            (fun r => r.top_level_error_message.getD "Unknown simulation error")))
      else
        .ok (pipeline_entries fee config transactions processing_results) := by
  simp only [analyze_transactions, process_transactions_with_analysis]
  split <;> simp_all

/-- A tagged call with a non-empty entry list appends exactly its batch to
its tag's stored sequence. -/
theorem analyze_store_tagged (fee : FeeOracle) (client : TaggedAnalysisClient)
    (transactions : List Transaction) (config : AnalysisConfig)
    (processing_results : List ProcessingResult) (tag : String)
    (htag : config.tag = some tag)
    (hne : pipeline_entries fee config transactions processing_results ≠ []) :
    (analyze_transactions fee client transactions config processing_results).snd.tagged_results_store =
      client.tagged_results_store.append tag
        (pipeline_entries fee config transactions processing_results) := by
  rw [analyze_snd, htag]
  have hE : (pipeline_entries fee config transactions processing_results).isEmpty = false := by
    cases hL : pipeline_entries fee config transactions processing_results with
    | nil => exact absurd hL hne
    | cons a l => rfl
  simp [hE]

/-- A call whose tag (if any) differs from `t` leaves the sequence stored
under `t` unchanged. -/
theorem analyze_store_untouched (fee : FeeOracle) (client : TaggedAnalysisClient)
    (transactions : List Transaction) (config : AnalysisConfig)
    (processing_results : List ProcessingResult) (t : String)
    (h : config.tag ≠ some t) :
    (analyze_transactions fee client transactions config processing_results).snd.tagged_results_store t =
      client.tagged_results_store t := by
  rw [analyze_snd]
  cases htag : config.tag with
  | none => rfl
  | some s =>
    have hst : s ≠ t := fun he => h (he ▸ htag)
    by_cases hE : (pipeline_entries fee config transactions processing_results).isEmpty
    · simp [hE]
    · simp only [hE, Bool.false_eq_true, if_false, TaggedStore.append]
      rw [if_neg (fun h₂ => hst h₂.symm)]

/-- Folding tagged calls: when every call carries tag `t` and produces a
non-empty entry list, the store under `t` ends with the initial content
followed by every call's batch, in call order. -/
theorem analyze_many_store (fee : FeeOracle) (t : String) (calls : List AnalyzeCall)
    (hcalls : ∀ c ∈ calls, c.config.tag = some t ∧ c.entries fee ≠ []) :
    ∀ client : TaggedAnalysisClient,
      (analyze_many fee client calls).tagged_results_store t =
        if calls.isEmpty then client.tagged_results_store t
        else some ((client.tagged_results_store t).getD [] ++
          (calls.map (fun c => c.entries fee)).flatten) := by
  induction calls with
  | nil => intro client; simp [analyze_many]
  | cons c rest ih =>
    intro client
    have hc := hcalls c (List.mem_cons_self c rest)
    have hrest := fun x hx => hcalls x (List.mem_cons_of_mem c hx)
    have step : analyze_many fee client (c :: rest) =
        analyze_many fee
          (analyze_transactions fee client c.transactions c.config
            c.processing_results).snd rest := rfl
    rw [step, ih hrest]
    have hsnd : (analyze_transactions fee client c.transactions c.config
        c.processing_results).snd.tagged_results_store t =
        some ((client.tagged_results_store t).getD [] ++ c.entries fee) := by
      rw [analyze_store_tagged fee client c.transactions c.config
        c.processing_results t hc.1 hc.2]
      simp [TaggedStore.append, AnalyzeCall.entries]
    cases hre : rest.isEmpty with
    | true =>
      have : rest = [] := by simpa [List.isEmpty_iff] using hre
      subst this
      simp [hsnd]
    | false =>
      simp only [hre, if_neg, Bool.false_eq_true, if_false, List.isEmpty_cons]
      rw [hsnd]
      simp [List.append_assoc]

/-- Folding calls none of which carries tag `t` leaves the store under `t`
unchanged. -/
theorem analyze_many_untouched (fee : FeeOracle) (t : String) (calls : List AnalyzeCall)
    (h : ∀ c ∈ calls, c.config.tag ≠ some t) :
    ∀ client : TaggedAnalysisClient,
      (analyze_many fee client calls).tagged_results_store t =
        client.tagged_results_store t := by
  induction calls with
  | nil => intro client; rfl
  | cons c rest ih =>
    intro client
    have step : analyze_many fee client (c :: rest) =
        analyze_many fee
          (analyze_transactions fee client c.transactions c.config
            c.processing_results).snd rest := rfl
    rw [step, ih (fun x hx => h x (List.mem_cons_of_mem c hx))]
    exact analyze_store_untouched fee client c.transactions c.config
      c.processing_results t (h c (List.mem_cons_self c rest))

/-- Sum of a constant function over a list. -/
theorem sum_map_const {α : Type} (l : List α) (f : α → Nat) (m : Nat)
    (h : ∀ x ∈ l, f x = m) : (l.map f).sum = l.length * m := by
  induction l with
  | nil => simp
  | cons a l ih =>
    simp only [List.map_cons, List.sum_cons, List.length_cons,
      h a (List.mem_cons_self a l), ih (fun x hx => h x (List.mem_cons_of_mem a hx))]
    ring

/-- Claim C3: k `analyze_transactions` calls tagged `t`, each producing m
entries (m > 0), leave `get_tagged_analysis_results t` holding exactly the
k batches concatenated in call order — k·m entries; and a tag never used
yields `none` (absent), not an empty sequence. -/
theorem claim_C3 (fee : FeeOracle) (t : String) (m : Nat)
    (calls calls₂ : List AnalyzeCall) (hm : 0 < m)
    (htag : ∀ c ∈ calls, c.config.tag = some t)
    (hlen : ∀ c ∈ calls, (c.entries fee).length = m)
    (hother : ∀ c ∈ calls₂, c.config.tag ≠ some t) :
    (calls ≠ [] →
      get_tagged_analysis_results (analyze_many fee TaggedAnalysisClient.new calls) t =
        some ((calls.map (fun c => c.entries fee)).flatten) ∧
      ((calls.map (fun c => c.entries fee)).flatten).length = calls.length * m) ∧
    get_tagged_analysis_results (analyze_many fee TaggedAnalysisClient.new calls₂) t =
      none := by
  constructor
  · intro hne
    constructor
    · have hst := analyze_many_store fee t calls
        (fun c hc => ⟨htag c hc, by
          intro hnil
          have hl := hlen c hc
          rw [hnil] at hl
          simp at hl
          omega⟩) TaggedAnalysisClient.new
      have hE : calls.isEmpty = false := by
        cases hL : calls with
        | nil => exact absurd hL hne
        | cons a l => rfl
      rw [hE] at hst
      simpa [get_tagged_analysis_results, TaggedAnalysisClient.new,
        TaggedStore.empty] using hst
    · rw [List.length_flatten]
      rw [List.map_map]
      exact sum_map_const calls _ m (fun c hc => hlen c hc)
  · have := analyze_many_untouched fee t calls₂ hother TaggedAnalysisClient.new
    simpa [get_tagged_analysis_results, TaggedAnalysisClient.new,
      TaggedStore.empty] using this

/-- A call tagged "t" on one successful transaction, producing one
compute-unit entry. -/
def callA : AnalyzeCall := ⟨[tx₀], cfgCuT, [prOk5]⟩

/-- A call tagged "u" on one successful transaction. -/
def callB : AnalyzeCall := ⟨[tx₀], cfgCuU, [prOk5]⟩

/-- Witness for C3: two calls tagged "t", each with one entry, leave two
entries (their batches in call order) under "t", while a client that only
ever saw tag "u" reports tag "t" as absent. -/
theorem claim_C3_witness :
    (get_tagged_analysis_results
        (analyze_many feeErr TaggedAnalysisClient.new [callA, callA]) "t" =
      some (([callA, callA].map (fun c => c.entries feeErr)).flatten) ∧
     (([callA, callA].map (fun c => c.entries feeErr)).flatten).length =
       ([callA, callA] : List AnalyzeCall).length * 1) ∧
    get_tagged_analysis_results
        (analyze_many feeErr TaggedAnalysisClient.new [callB]) "t" = none :=
  have h := claim_C3 feeErr "t" 1 [callA, callA] [callB] (by decide) (by decide)
    (by decide) (by decide)
  ⟨h.1 (List.cons_ne_nil callA [callA]), h.2⟩

/-- Claim C4: for a raw result with priority-fee analysis requested but no
fee detail attached (consumed = 0 or base failure), the pipeline expansion
emits exactly one PriorityFee entry, whose detail carries a non-empty error
message explaining the detail is unavailable and whose fee fields are left
at their zero defaults. -/
theorem claim_C4 (config : AnalysisConfig) (raw_res : RawSimulationResult)
    (hpf : config.calculate_priority_fee = true)
    (hnone : raw_res.prioritization_fee_details = none) :
    (analysis_entries_for config raw_res).filter
        (fun e => e.analysis_type == "priority_fee") =
      [{ base_simulation_success := raw_res.success
         analysis_type := "priority_fee"
         details := .PriorityFee
           { fee_per_cu_micro_lamports := 0
             total_fee_lamports := 0
             error_message :=
               some "Priority fee details not available or calculation skipped." }
         top_level_error_message :=
           some "Priority fee details not available or calculation skipped." }] ∧
    "Priority fee details not available or calculation skipped." ≠ "" := by
  constructor
  · unfold analysis_entries_for
    rw [hpf, hnone]
    cases hcu : config.estimate_compute_units with
    | true =>
      simp [PrioritizationFeeDetails.base, List.filter]
    | false =>
      simp [PrioritizationFeeDetails.base, List.filter]
  · decide

/-- Witness for C4: a failed base simulation (cu = 0, no fee detail) under
`cfgPf` yields the single placeholder PriorityFee entry. -/
theorem claim_C4_witness :
    (analysis_entries_for cfgPf (RawSimulationResult.base_failure "x")).filter
        (fun e => e.analysis_type == "priority_fee") =
      [{ base_simulation_success := (RawSimulationResult.base_failure "x").success
         analysis_type := "priority_fee"
         details := .PriorityFee
           { fee_per_cu_micro_lamports := 0
             total_fee_lamports := 0
             error_message :=
               some "Priority fee details not available or calculation skipped." }
         top_level_error_message :=
           some "Priority fee details not available or calculation skipped." }] ∧
    "Priority fee details not available or calculation skipped." ≠ "" :=
  claim_C4 cfgPf (RawSimulationResult.base_failure "x") (by decide) (by decide)

/-- A two-account message with no instructions. -/
def msg₀ : Message := { account_keys := [1, 2], instructions := [] }

/-- Claim C5: for a transaction (or message) whose compute-unit estimate is
U, a successful optimize call inserts exactly one compute-budget limit
instruction at position 0 of the instruction list and returns U itself (the
raw estimate, not the margin-adjusted limit that goes into the instruction).
The hypothesis `U < 2^32` encodes the engine contract that reported
executed units never exceed the u32 compute-budget limit (the default
budget used by the channel caps them at 1 400 000). -/
theorem claim_C5 (fee : FeeOracle) (transaction : Transaction)
    (processing_results : List ProcessingResult) (sim : RpcSimulationValue)
    (message : Message) (U : Nat) (cus : List Nat) (hU : U < 2 ^ 32) :
    (estimate_compute_units_unsigned_tx fee transaction processing_results = .ok cus →
      cus.head? = some U →
      optimize_compute_units_unsigned_tx fee transaction processing_results =
        .ok (U,
          ⟨{ account_keys :=
               transaction.message.account_keys ++ [compute_budget_program_id]
             instructions :=
               compile_instruction
                 (transaction.message.account_keys ++ [compute_budget_program_id])
                 (set_compute_unit_limit (saturating_add_u32 U U)) ::
               transaction.message.instructions }⟩)) ∧
    (estimate_compute_units_msg sim = .ok U →
      optimize_compute_units_msg sim message =
        .ok (U,
          { account_keys := message.account_keys ++ [compute_budget_program_id]
            instructions :=
              compile_instruction
                (message.account_keys ++ [compute_budget_program_id])
                (set_compute_unit_limit (saturating_add_u32 U 150)) ::
              message.instructions })) := by
  constructor
  · intro hest hhead
    simp only [optimize_compute_units_unsigned_tx, hest, hhead,
      Nat.mod_eq_of_lt hU]
  · intro hest
    simp only [optimize_compute_units_msg, hest, if_pos hU]

/-- Witness for C5: the unsigned variant at estimate 5 and the msg variant
at estimate 7. -/
theorem claim_C5_witness :
    optimize_compute_units_unsigned_tx feeErr tx₀ [prOk5] =
      .ok (5,
        ⟨{ account_keys := tx₀.message.account_keys ++ [compute_budget_program_id]
           instructions :=
             compile_instruction
               (tx₀.message.account_keys ++ [compute_budget_program_id])
               (set_compute_unit_limit (saturating_add_u32 5 5)) ::
             tx₀.message.instructions }⟩) ∧
    optimize_compute_units_msg ⟨some 7, none⟩ msg₀ =
      .ok (7,
        { account_keys := msg₀.account_keys ++ [compute_budget_program_id]
          instructions :=
            compile_instruction
              (msg₀.account_keys ++ [compute_budget_program_id])
              (set_compute_unit_limit (saturating_add_u32 7 150)) ::
            msg₀.instructions }) :=
  ⟨(claim_C5 feeErr tx₀ [prOk5] ⟨some 7, none⟩ msg₀ 5 [5] (by decide)).1 rfl rfl,
   (claim_C5 feeErr tx₀ [prOk5] ⟨some 7, none⟩ msg₀ 7 [5] (by decide)).2 rfl⟩

/-- Counterexample for C6 as stated: optimizing a message whose account
keys already contain the compute-budget program id still appends it,
leaving the key list changed (a duplicate), not unchanged. -/
theorem claim_C6_counterexample :
    optimize_compute_units_msg ⟨some 7, none⟩
        { account_keys := [compute_budget_program_id], instructions := [] } =
      .ok (7,
        { account_keys := [compute_budget_program_id, compute_budget_program_id]
          instructions :=
            [compile_instruction
              [compute_budget_program_id, compute_budget_program_id]
              (set_compute_unit_limit 157)] }) ∧
    [compute_budget_program_id, compute_budget_program_id] ≠
      [compute_budget_program_id] := by
  exact ⟨rfl, by decide⟩

/-- Claim C6 (amended): on every successful optimize call (either variant),
the compute-budget program id is appended to the message's account-key list
unconditionally — also when it is already present, producing a duplicate —
and the inserted first instruction is compiled against the extended list. -/
theorem claim_C6 (fee : FeeOracle) (transaction : Transaction)
    (processing_results : List ProcessingResult) (sim : RpcSimulationValue)
    (message : Message) (U : Nat) (tx₂ : Transaction) (msg₂ : Message) :
    (optimize_compute_units_unsigned_tx fee transaction processing_results =
        .ok (U, tx₂) →
      tx₂.message.account_keys =
        transaction.message.account_keys ++ [compute_budget_program_id] ∧
      tx₂.message.instructions.head? = some (compile_instruction
        (transaction.message.account_keys ++ [compute_budget_program_id])
        (set_compute_unit_limit (saturating_add_u32 U U)))) ∧
    (optimize_compute_units_msg sim message = .ok (U, msg₂) →
      msg₂.account_keys = message.account_keys ++ [compute_budget_program_id] ∧
      msg₂.instructions.head? = some (compile_instruction
        (message.account_keys ++ [compute_budget_program_id])
        (set_compute_unit_limit (saturating_add_u32 U 150)))) := by
  constructor
  · intro h
    unfold optimize_compute_units_unsigned_tx at h
    cases hest : estimate_compute_units_unsigned_tx fee transaction processing_results with
    | error e => simp only [hest] at h; simp at h
    | ok cus =>
      simp only [hest] at h
      cases hh : cus.head? with
      | none => simp only [hh] at h; simp at h
      | some cu₀ =>
        simp only [hh, Except.ok.injEq, Prod.mk.injEq] at h
        obtain ⟨hU, htx⟩ := h
        subst hU
        rw [← htx]
        exact ⟨rfl, rfl⟩
  · intro h
    unfold optimize_compute_units_msg at h
    cases hest : estimate_compute_units_msg sim with
    | error e => simp only [hest] at h; simp at h
    | ok estimated =>
      simp only [hest] at h
      by_cases hlt : estimated < 2 ^ 32
      · simp only [if_pos hlt, Except.ok.injEq, Prod.mk.injEq] at h
        obtain ⟨hU, hmsg⟩ := h
        subst hU
        rw [← hmsg]
        exact ⟨rfl, rfl⟩
      · simp only [if_neg hlt] at h
        simp at h

/-- Witness for C6 (amended): the account-key list after each successful
optimize call ends with the appended compute-budget id. -/
theorem claim_C6_witness :
    (({ account_keys := [1, 2, compute_budget_program_id]
        instructions :=
          [compile_instruction [1, 2, compute_budget_program_id]
            (set_compute_unit_limit (saturating_add_u32 5 5))] } : Message).account_keys =
      tx₀.message.account_keys ++ [compute_budget_program_id]) ∧
    (({ account_keys := [1, 2, compute_budget_program_id]
        instructions :=
          [compile_instruction [1, 2, compute_budget_program_id]
            (set_compute_unit_limit (saturating_add_u32 7 150))] } : Message).account_keys =
      msg₀.account_keys ++ [compute_budget_program_id]) :=
  have h₁ := (claim_C6 feeErr tx₀ [prOk5] ⟨some 7, none⟩ msg₀ 5
    ⟨{ account_keys := [1, 2, compute_budget_program_id]
       instructions :=
         [compile_instruction [1, 2, compute_budget_program_id]
           (set_compute_unit_limit (saturating_add_u32 5 5))] }⟩
    msg₀).1 rfl
  have h₂ := (claim_C6 feeErr tx₀ [prOk5] ⟨some 7, none⟩ msg₀ 7 tx₀
    { account_keys := [1, 2, compute_budget_program_id]
      instructions :=
        [compile_instruction [1, 2, compute_budget_program_id]
          (set_compute_unit_limit (saturating_add_u32 7 150))] }).2 rfl
  ⟨h₁.1, h₂.1⟩

/-- The seed of a max-fold is a lower bound of the result. -/
theorem base_le_foldl_max (l : List Nat) (a : Nat) : a ≤ l.foldl Nat.max a := by
  induction l generalizing a with
  | nil => exact Nat.le_refl a
  | cons b l ih => exact Nat.le_trans (Nat.le_max_left a b) (ih (Nat.max a b))

/-- Every element of a list bounds from below the max-fold over it. -/
theorem le_foldl_max (l : List Nat) (a x : Nat) (hx : x ∈ l) :
    x ≤ l.foldl Nat.max a := by
  induction l generalizing a with
  | nil => cases hx
  | cons b l ih =>
    cases hx with
    | head => exact Nat.le_trans (Nat.le_max_right a _) (base_le_foldl_max l _)
    | tail _ hx₂ => exact ih (Nat.max a b) hx₂

/-- A strict upper bound of the seed and all elements bounds the max-fold. -/
theorem foldl_max_lt (l : List Nat) (a b : Nat) (ha : a < b)
    (hl : ∀ x ∈ l, x < b) : l.foldl Nat.max a < b := by
  induction l generalizing a with
  | nil => exact ha
  | cons c l ih =>
    exact ih (Nat.max a c) (Nat.max_lt.mpr ⟨ha, hl c (List.mem_cons_self c l)⟩)
      (fun x hx => hl x (List.mem_cons_of_mem c hx))

/-- A max-fold is the seed or one of the elements. -/
theorem foldl_max_eq_or_mem (l : List Nat) (a : Nat) :
    l.foldl Nat.max a = a ∨ l.foldl Nat.max a ∈ l := by
  induction l generalizing a with
  | nil => exact Or.inl rfl
  | cons b l ih =>
    cases ih (Nat.max a b) with
    | inl h =>
      cases Nat.le_total a b with
      | inl hab =>
        have hm : Nat.max a b = b := Nat.max_eq_right hab
        exact Or.inr (by
          rw [List.foldl_cons, h, hm]
          exact List.mem_cons_self b l)
      | inr hab =>
        have hm : Nat.max a b = a := Nat.max_eq_left hab
        exact Or.inl (by rw [List.foldl_cons, h, hm])
    | inr h => exact Or.inr (List.mem_cons_of_mem b h)

/-- Counterexample for C7 as stated: with one observed rate of 2 000 000
micro-lamports per unit and a target of 2^63 compute units, the code
returns 0, while floor((max_rate · cu) / 1 000 000) is 2^64 — the final
`as u64` cast wraps the 128-bit quotient. -/
theorem claim_C7_counterexample :
    estimate_priority_fee_for_cu [⟨2000000⟩] (2 ^ 63) = 0 ∧
    2000000 * 2 ^ 63 / 1000000 = 2 ^ 64 ∧
    (0 : Nat) ≠ 2 ^ 64 := by
  refine ⟨by decide, by decide, by decide⟩

/-- Claim C7 (amended): for u64-ranged inputs, the estimator takes the
maximum observed rate M (0 when there are no observations, an observed rate
otherwise, and an upper bound of all observed rates), the 128-bit product
M·cu never overflows before the truncating division, and the returned value
is floor(M·cu / 1 000 000) reduced mod 2^64 by the final u64 cast — equal
to the floor itself whenever the floor is below 2^64. -/
theorem claim_C7 (fees : List RpcPrioritizationFee) (cu : Nat)
    (hf : ∀ f ∈ fees, f.prioritization_fee < 2 ^ 64) (hcu : cu < 2 ^ 64) :
    (fees = [] →
      (fees.map (fun f => f.prioritization_fee)).foldl Nat.max 0 = 0) ∧
    (∀ f ∈ fees, f.prioritization_fee ≤
      (fees.map (fun f => f.prioritization_fee)).foldl Nat.max 0) ∧
    ((fees.map (fun f => f.prioritization_fee)).foldl Nat.max 0 = 0 ∨
      (fees.map (fun f => f.prioritization_fee)).foldl Nat.max 0 ∈
        fees.map (fun f => f.prioritization_fee)) ∧
    (fees.map (fun f => f.prioritization_fee)).foldl Nat.max 0 * cu < 2 ^ 128 ∧
    estimate_priority_fee_for_cu fees cu =
      (fees.map (fun f => f.prioritization_fee)).foldl Nat.max 0 * cu
        / 1000000 % 2 ^ 64 ∧
    ((fees.map (fun f => f.prioritization_fee)).foldl Nat.max 0 * cu
        / 1000000 < 2 ^ 64 →
      estimate_priority_fee_for_cu fees cu =
        (fees.map (fun f => f.prioritization_fee)).foldl Nat.max 0 * cu
          / 1000000) := by
  have hM : (fees.map (fun f => f.prioritization_fee)).foldl Nat.max 0 < 2 ^ 64 := by
    apply foldl_max_lt
    · exact Nat.pos_pow_of_pos 64 (by decide)
    · intro x hx
      obtain ⟨f, hfm, hfx⟩ := List.mem_map.mp hx
      exact hfx ▸ hf f hfm
  have hprod : (fees.map (fun f => f.prioritization_fee)).foldl Nat.max 0 * cu
      < 2 ^ 128 := by
    calc (fees.map (fun f => f.prioritization_fee)).foldl Nat.max 0 * cu
        < 2 ^ 64 * 2 ^ 64 := Nat.mul_lt_mul'' hM hcu
      _ = 2 ^ 128 := by norm_num
  have heq : estimate_priority_fee_for_cu fees cu =
      (fees.map (fun f => f.prioritization_fee)).foldl Nat.max 0 * cu
        / 1000000 % 2 ^ 64 := by
    simp only [estimate_priority_fee_for_cu]
    rw [Nat.mod_eq_of_lt hprod]
  refine ⟨fun h => by rw [h]; rfl,
    fun f hfm => le_foldl_max _ 0 _ (List.mem_map.mpr ⟨f, hfm, rfl⟩),
    foldl_max_eq_or_mem _ 0, hprod, heq, fun hlt => by rw [heq, Nat.mod_eq_of_lt hlt]⟩

/-- Witness for C7 (amended): two observed rates 3 and 5 with a 1 000 000
unit target give exactly floor(5 · 1 000 000 / 1 000 000). -/
theorem claim_C7_witness :
    estimate_priority_fee_for_cu [⟨3⟩, ⟨5⟩] 1000000 =
      (([⟨3⟩, ⟨5⟩] : List RpcPrioritizationFee).map
        (fun f => f.prioritization_fee)).foldl Nat.max 0 * 1000000 / 1000000 :=
  (claim_C7 [⟨3⟩, ⟨5⟩] 1000000 (by decide) (by decide)).2.2.2.2.2 (by decide)

/-- A non-empty batch always yields at least one raw result (one per engine
outcome, or the fallback entry). -/
theorem simulate_ne_nil (fee : FeeOracle) (config : AnalysisConfig)
    (transactions : List Transaction) (processing_results : List ProcessingResult)
    (h : transactions ≠ []) :
    simulate_transactions_raw fee config transactions processing_results ≠ [] := by
  unfold simulate_transactions_raw
  by_cases hc : ((processing_results.enum.map
      (fun p => simulate_step fee config transactions p.fst p.snd)).isEmpty &&
      !transactions.isEmpty) = true
  · rw [if_pos hc]
    exact List.cons_ne_nil _ _
  · rw [if_neg hc]
    intro hmap
    exact hc (by simp [hmap, h])

/-- With at least one analysis flag enabled, every raw result expands to at
least one entry. -/
theorem entries_for_ne_nil (config : AnalysisConfig) (r : RawSimulationResult)
    (h : config.estimate_compute_units = true ∨ config.calculate_priority_fee = true) :
    analysis_entries_for config r ≠ [] := by
  unfold analysis_entries_for
  cases hcu : config.estimate_compute_units with
  | true => simp
  | false =>
    have hpf : config.calculate_priority_fee = true := by
      cases h with
      | inl h₂ => exact absurd h₂ (by simp [hcu])
      | inr h₂ => exact h₂
    cases hd : r.prioritization_fee_details with
    | none => simp [hpf, hd]
    | some d => simp [hpf, hd]

/-- With a non-empty batch and at least one analysis flag enabled, the
pipeline produces at least one entry. -/
theorem pipeline_ne_nil (fee : FeeOracle) (config : AnalysisConfig)
    (transactions : List Transaction) (processing_results : List ProcessingResult)
    (htx : transactions ≠ [])
    (hflag : config.estimate_compute_units = true ∨
      config.calculate_priority_fee = true) :
    pipeline_entries fee config transactions processing_results ≠ [] := by
  unfold pipeline_entries
  intro h
  obtain ⟨r, hr⟩ := List.exists_mem_of_ne_nil _
    (simulate_ne_nil fee config transactions processing_results htx)
  have hmem : analysis_entries_for config r ∈
      (simulate_transactions_raw fee config transactions processing_results).map
        (analysis_entries_for config) :=
    List.mem_map_of_mem (analysis_entries_for config) hr
  exact entries_for_ne_nil config r hflag
    (List.flatten_eq_nil_iff.mp h _ hmem)

/-- Claim C9: on a non-empty batch with at least one analysis enabled,
`analyze_transactions` returns the call-level error — whose message joins
the individual per-entry messages — exactly when every produced entry has
`base_simulation_success = false`; when at least one entry succeeded, the
call returns Ok with all the entries (per-transaction failures stay in
their entries). -/
theorem claim_C9 (fee : FeeOracle) (client : TaggedAnalysisClient)
    (transactions : List Transaction) (config : AnalysisConfig)
    (processing_results : List ProcessingResult)
    (htx : transactions ≠ [])
    (hflag : config.estimate_compute_units = true ∨
      config.calculate_priority_fee = true) :
    ((∀ r ∈ pipeline_entries fee config transactions processing_results,
        r.base_simulation_success = false) →
      (analyze_transactions fee client transactions config processing_results).fst =
        .error ("All transaction simulations failed: " ++ String.intercalate "; "
          ((pipeline_entries fee config transactions processing_results).map
            (fun r => r.top_level_error_message.getD "Unknown simulation error")))) ∧
    ((∃ r ∈ pipeline_entries fee config transactions processing_results,
        r.base_simulation_success = true) →
      (analyze_transactions fee client transactions config processing_results).fst =
        .ok (pipeline_entries fee config transactions processing_results)) := by
  have hne := pipeline_ne_nil fee config transactions processing_results htx hflag
  have hE : (pipeline_entries fee config transactions processing_results).isEmpty =
      false := by
    cases hL : pipeline_entries fee config transactions processing_results with
    | nil => exact absurd hL hne
    | cons a l => rfl
  constructor
  · intro hall
    rw [analyze_fst]
    have hcond : (!(pipeline_entries fee config transactions
        processing_results).isEmpty &&
        (pipeline_entries fee config transactions processing_results).all
          (fun r => !r.base_simulation_success)) = true := by
      rw [hE]
      simp only [Bool.not_false, Bool.true_and, List.all_eq_true]
      intro r hr
      simp [hall r hr]
    rw [if_pos hcond]
  · intro hex
    obtain ⟨r, hr, hsucc⟩ := hex
    rw [analyze_fst]
    have hcond : (!(pipeline_entries fee config transactions
        processing_results).isEmpty &&
        (pipeline_entries fee config transactions processing_results).all
          (fun r => !r.base_simulation_success)) = false := by
      rw [hE]
      simp only [Bool.not_false, Bool.true_and]
      rw [List.all_eq_false]
      exact ⟨r, hr, by simp [hsucc]⟩
    rw [if_neg (by simp [hcond])]

/-- Witness for C9: an all-failed batch escalates to the joined error; a
batch with a success returns Ok with all entries. -/
theorem claim_C9_witness :
    (analyze_transactions feeErr TaggedAnalysisClient.new [tx₀] cfgCu [prFail100]).fst =
      .error ("All transaction simulations failed: " ++ String.intercalate "; "
        ((pipeline_entries feeErr cfgCu [tx₀] [prFail100]).map
          (fun r => r.top_level_error_message.getD "Unknown simulation error"))) ∧
    (analyze_transactions feeErr TaggedAnalysisClient.new [tx₀] cfgCu [prOk5]).fst =
      .ok (pipeline_entries feeErr cfgCu [tx₀] [prOk5]) :=
  ⟨(claim_C9 feeErr TaggedAnalysisClient.new [tx₀] cfgCu [prFail100]
      (by decide) (Or.inl rfl)).1 (by decide),
   (claim_C9 feeErr TaggedAnalysisClient.new [tx₀] cfgCu [prOk5]
      (by decide) (Or.inl rfl)).2 (by decide)⟩

/-- Claim C10: when a tagged call's batch fails entirely, the entries are
nevertheless appended to the tag's stored sequence before the all-failed
check — the call returns the aggregate error, yet `get_tagged` afterwards
returns the failed call's entries (the error return is not atomic with the
store). -/
theorem claim_C10 (fee : FeeOracle) (client : TaggedAnalysisClient)
    (transactions : List Transaction) (config : AnalysisConfig)
    (processing_results : List ProcessingResult) (t : String)
    (htag : config.tag = some t)
    (hne : pipeline_entries fee config transactions processing_results ≠ [])
    (hfail : ∀ r ∈ pipeline_entries fee config transactions processing_results,
      r.base_simulation_success = false) :
    (∃ e, (analyze_transactions fee client transactions config
      processing_results).fst = .error e) ∧
    get_tagged_analysis_results
        (analyze_transactions fee client transactions config processing_results).snd
        t =
      some ((get_tagged_analysis_results client t).getD [] ++
        pipeline_entries fee config transactions processing_results) := by
  have hE : (pipeline_entries fee config transactions processing_results).isEmpty =
      false := by
    cases hL : pipeline_entries fee config transactions processing_results with
    | nil => exact absurd hL hne
    | cons a l => rfl
  constructor
  · have hcond : (!(pipeline_entries fee config transactions
        processing_results).isEmpty &&
        (pipeline_entries fee config transactions processing_results).all
          (fun r => !r.base_simulation_success)) = true := by
      rw [hE]
      simp only [Bool.not_false, Bool.true_and, List.all_eq_true]
      intro r hr
      simp [hfail r hr]
    have h₂ : (analyze_transactions fee client transactions config
        processing_results).fst =
        .error ("All transaction simulations failed: " ++ String.intercalate "; "
          ((pipeline_entries fee config transactions processing_results).map
            (fun r => r.top_level_error_message.getD "Unknown simulation error"))) := by
      rw [analyze_fst, if_pos hcond]
    exact ⟨_, h₂⟩
  · unfold get_tagged_analysis_results
    rw [analyze_store_tagged fee client transactions config processing_results t
      htag hne]
    simp [TaggedStore.append]

/-- Witness for C10: a tagged all-failed call returns the error while its
entries land in the store under "t". -/
theorem claim_C10_witness :
    (∃ e, (analyze_transactions feeErr TaggedAnalysisClient.new [tx₀] cfgCuT
      [prFail100]).fst = .error e) ∧
    get_tagged_analysis_results
        (analyze_transactions feeErr TaggedAnalysisClient.new [tx₀] cfgCuT
          [prFail100]).snd "t" =
      some ((get_tagged_analysis_results TaggedAnalysisClient.new "t").getD [] ++
        pipeline_entries feeErr cfgCuT [tx₀] [prFail100]) :=
  claim_C10 feeErr TaggedAnalysisClient.new [tx₀] cfgCuT [prFail100] "t"
    rfl (by decide) (by decide)

end SolanaClientExt
